import Mathlib

/-!
Shallow embedding of `src/TextWriter.ts` (class `TextWriter`).

The class holds four fields (destination container, animation delay,
wrapper tag, scroll flag) and exposes `write`, `writeJson`,
`skipAnimation` and three setters.  We model the mutable instance as a
`WriterState` record; every operation takes the state and returns the
updated state together with the list of observable events it performs,
in order.  The events cover every suspension point (`await` on a
timeout) and every mutation of the presentation surface
(`insertAdjacentHTML`, `insertAdjacentText`, `innerHTML = ''`,
`scrollIntoView`).  Delays and multipliers are JS numbers carrying
exact small values here, modelled as rationals; `if (x)` on a number is
JS-truthy exactly when x is nonzero, and `if (s)` on a nullable string
is truthy exactly when s is neither null nor empty.
-/

/-- Which element of the surface an append or clear acts on: the
destination container itself, the wrapper-tag child created by
`getTargetElement`, or the `<pre>` block created by `writeJson`. -/
inductive Target
  | container
  | wrapper
  | pre
deriving DecidableEq, Repr

/-- One observable step: a scheduler suspension or a surface mutation.
`wrappedChar` is `insertAdjacentHTML` of `<span>c</span>` (the inline
wrap is the literal span in `writeHtmlChar`); `plainChar` is
`insertAdjacentText`; `wrapperChild` is the `<tag></tag>` child appended
by `getTargetElement`; `preBlock` is the `<pre></pre>` appended by
`writeJson`; `clear` is `innerHTML = ''`; `scroll` is
`scrollIntoView`. -/
inductive Ev
  | sleep (ms : ℚ)
  | wrapperChild (tag : String)
  | preBlock
  | clear (tgt : Target)
  | wrappedChar (tgt : Target) (c : Char)
  | plainChar (tgt : Target) (c : Char)
  | scroll
deriving DecidableEq, Repr

/-- The persistent fields of a `TextWriter` instance.  The destination
container is kept as the id of the resolved element (`none` when the
lookup failed / the field is still undefined). -/
structure WriterState where
  textDestinationContainer : Option String
  animationDelay : ℚ
  htmlWrapperTag : Option String
  scrollToTextEnabled : Bool
deriving DecidableEq, Repr

/-- Constructor `TextWriter(destinationId, scrollToTextEnabled = false)`:
stores the resolved destination and the scroll flag; the field defaults
are delay 100 and no wrapper tag. -/
def mkTextWriter (dest : Option String) (scroll : Bool := false) : WriterState :=
  { textDestinationContainer := dest
    animationDelay := 100
    htmlWrapperTag := none
    scrollToTextEnabled := scroll }

/-- Setter `setDestination`: stores the result of the external
`document.getElementById` lookup. -/
def setDestination (st : WriterState) (resolved : Option String) : WriterState :=
  { st with textDestinationContainer := resolved }

/-- Setter `setAnimationDelay`. -/
def setAnimationDelay (st : WriterState) (animationDelay : ℚ) : WriterState :=
  { st with animationDelay := animationDelay }

/-- Setter `setHtmlWrapperTag` (the field starts as null, so we keep it
optional). -/
def setHtmlWrapperTag (st : WriterState) (tag : Option String) : WriterState :=
  { st with htmlWrapperTag := tag }

/-- Method `scrollToText`: scrolls the container into view when the
flag is enabled, otherwise does nothing. -/
def scrollToText (st : WriterState) : List Ev :=
  if st.scrollToTextEnabled then [Ev.scroll] else []

/-- Method `sleepAnimationDelay(multiplier)`: when
`animationDelay * multiplier == 0` it returns `true` without scheduling
anything (no suspension event); otherwise it awaits a timeout of that
product.  We return the emitted suspension events. -/
def sleepAnimationDelay (st : WriterState) (multiplier : ℚ) : List Ev :=
  if st.animationDelay * multiplier = 0 then []
  else [Ev.sleep (st.animationDelay * multiplier)]

/-- Method `getTargetElement`: when `htmlWrapperTag` is JS-truthy
(non-null and non-empty) it appends a fresh `<tag></tag>` child to the
container and that child (found again via `querySelector
tag:last-of-type`) becomes the target; otherwise the container itself
is the target.  Returns the emitted events and the resolved target. -/
def getTargetElement (st : WriterState) : List Ev × Target :=
  match st.htmlWrapperTag with
  | some tag =>
      if tag = "" then ([], Target.container)
      else ([Ev.wrapperChild tag], Target.wrapper)
  | none => ([], Target.container)

/-- Method `writeHtmlChar(char, target)`: appends `<span>char</span>`
to the target, then scrolls. -/
def writeHtmlChar (st : WriterState) (tgt : Target) (c : Char) : List Ev :=
  [Ev.wrappedChar tgt c] ++ scrollToText st

/-- Method `writeChar(char, target)`: appends the character as plain
text to the target, then scrolls. -/
def writeChar (st : WriterState) (tgt : Target) (c : Char) : List Ev :=
  [Ev.plainChar tgt c] ++ scrollToText st

/-- The per-character loop of `write`: for each character in order,
`await sleepAnimationDelay(multiplier)` then
`writeHtmlChar(chars[i], target)`. -/
def charSteps (st : WriterState) (m : ℚ) (tgt : Target) : List Char → List Ev
  | [] => []
  | c :: cs => sleepAnimationDelay st m ++ writeHtmlChar st tgt c ++ charSteps st m tgt cs

/-- The per-character loop of `writeJson`: for each character in order,
`await sleepAnimationDelay(multiplier)` then
`writeChar(chars[i], target)`. -/
def jsonCharSteps (st : WriterState) (m : ℚ) (tgt : Target) : List Char → List Ev
  | [] => []
  | c :: cs => sleepAnimationDelay st m ++ writeChar st tgt c ++ jsonCharSteps st m tgt cs

/-- The scalar branch of `write`: resolve the target via
`getTargetElement` (possibly appending a wrapper child), clear the
target when `replace` is set, then run the per-character loop.  The
method assigns to no instance field, so the state comes back
unchanged. -/
def writeScalar (st : WriterState) (s : String) (m : ℚ) (replace : Bool) :
    WriterState × List Ev :=
  let t := getTargetElement st
  (st, t.1 ++ (if replace then [Ev.clear t.2] else []) ++ charSteps st m t.2 s.data)

/-- The lead-delay step of `write`: `if (delay) await timeout(delay)` —
JS truthiness, so any nonzero delay (negative included) suspends. -/
def leadEvs (delay : ℚ) : List Ev :=
  if delay ≠ 0 then [Ev.sleep delay] else []

/-- The `text` argument of `write`: a string or an array of strings
(`typeof toWrite == 'object'` dispatch). -/
inductive Content
  | str (s : String)
  | arr (L : List String)
deriving DecidableEq, Repr

/-- The `for (var x in toWrite)` loop of `write` over an array: each
element is written by the recursive call
`this.write(toWrite[x], animationMultiplier, 0, replace)`, which on a
string with zero lead delay is exactly `writeScalar`.  Each element is
fully written before the next begins. -/
def writeListLoop (m : ℚ) (replace : Bool) (st : WriterState) (acc : List Ev) :
    List String → WriterState × List Ev
  | [] => (st, acc)
  | e :: rest =>
      writeListLoop m replace (writeScalar st e m replace).1
        (acc ++ (writeScalar st e m replace).2) rest

/-- Method `write(text, animationMultiplier = 1, delay = 0,
replace = false)`: optional lead suspension, then either the array
loop or the scalar branch. -/
def write (st : WriterState) (text : Content) (m : ℚ) (delay : ℚ) (replace : Bool) :
    WriterState × List Ev :=
  match text with
  | Content.str s =>
      ((writeScalar st s m replace).1, leadEvs delay ++ (writeScalar st s m replace).2)
  | Content.arr L =>
      let r := writeListLoop m replace st [] L
      (r.1, leadEvs delay ++ r.2)

/-- JSON values, as produced by the platform's `JSON.parse`.  Numbers
are kept integral; the claims do not depend on float formatting. -/
inductive Json
  | null
  | bool (b : Bool)
  | num (n : Int)
  | str (s : String)
  | arr (xs : List Json)
  | obj (fields : List (String × Json))

/-- String escaping used by the serializer. -/
def jsonEscapeChar (c : Char) : String :=
  if c = '"' then "\\\""
  else if c = '\\' then "\\\\"
  else if c = '\n' then "\\n"
  else if c = '\t' then "\\t"
  else if c = '\r' then "\\r"
  else String.singleton c

/-- Quoted, escaped JSON string literal. -/
def jsonEscape (s : String) : String :=
  "\"" ++ String.join (s.data.map jsonEscapeChar) ++ "\""

/-- Indentation of n spaces. -/
def indentStr (n : Nat) : String :=
  String.mk (List.replicate n ' ')

mutual
/-- Platform collaborator `JSON.stringify(value, null, 2)` at the given
current indent: the fixed convention is 2-space indentation per nesting
level, members one per line, `": "` after each key. -/
def stringifyAt : Nat → Json → String
  | _, Json.null => "null"
  | _, Json.bool b => if b then "true" else "false"
  | _, Json.num n => toString n
  | _, Json.str s => jsonEscape s
  | _, Json.arr [] => "[]"
  | ind, Json.arr (x :: xs) =>
      "[\n" ++ stringifyElems (ind + 2) (x :: xs) ++ "\n" ++ indentStr ind ++ "]"
  | _, Json.obj [] => "\x7b\x7d"
  | ind, Json.obj (f :: fs) =>
      "\x7b\n" ++ stringifyFields (ind + 2) (f :: fs) ++ "\n" ++ indentStr ind ++ "\x7d"

/-- Comma-and-newline separated array elements, each indented. -/
def stringifyElems : Nat → List Json → String
  | _, [] => ""
  | ind, [x] => indentStr ind ++ stringifyAt ind x
  | ind, x :: y :: xs =>
      indentStr ind ++ stringifyAt ind x ++ ",\n" ++ stringifyElems ind (y :: xs)

/-- Comma-and-newline separated object members, each indented. -/
def stringifyFields : Nat → List (String × Json) → String
  | _, [] => ""
  | ind, [(k, v)] => indentStr ind ++ jsonEscape k ++ ": " ++ stringifyAt ind v
  | ind, (k, v) :: g :: fs =>
      indentStr ind ++ jsonEscape k ++ ": " ++ stringifyAt ind v ++ ",\n" ++
        stringifyFields ind (g :: fs)
end

/-- Top-level `JSON.stringify(value, null, 2)`. -/
def stringify (j : Json) : String := stringifyAt 0 j

/-- The `text` argument of `writeJson`: either textual input that must
be parsed first, or an already-structured value. -/
inductive JsonInput
  | text (s : String)
  | json (j : Json)

/-- Method `writeJson(text, animationMultiplier = 0.4)`.  Textual input
goes through the platform's `JSON.parse` (passed in as `parse`); a
parse failure is a throw raised before any surface mutation, modelled
as an error result carrying no events.  On success the value is
re-serialized by `JSON.stringify(·, null, 2)`, a `<pre></pre>` block is
appended to the container and becomes the target, and each character is
appended as plain text after the per-character suspension.  No instance
field is assigned. -/
def writeJson (parse : String → Option Json) (st : WriterState) (text : JsonInput)
    (m : ℚ) : Except String (WriterState × List Ev) :=
  match (match text with | JsonInput.text s => parse s | JsonInput.json j => some j) with
  | none => Except.error "malformed structured input"
  | some j =>
      Except.ok (st, [Ev.preBlock] ++ jsonCharSteps st m Target.pre (stringify j).data)

/-- The state `skipAnimation` holds while its single `await` is in
flight: the delay field forced to zero, everything else untouched. -/
def skipAnimationMid (st : WriterState) : WriterState :=
  { st with animationDelay := 0 }

/-- Method `skipAnimation()`: saves the current delay, zeroes the
field, awaits a timeout of the saved delay (always a suspension, even
for zero), then restores the saved delay. -/
def skipAnimation (st : WriterState) : WriterState × List Ev :=
  let delay := st.animationDelay
  let st1 := skipAnimationMid st
  ({ st1 with animationDelay := delay }, [Ev.sleep delay])

/-- Follows the spec's words for the zero-product case: the characters
of a pause-free synchronous write, each appended as a wrapped unit with
the scroll side effect and no suspension anywhere. -/
def syncCharSteps (st : WriterState) (tgt : Target) : List Char → List Ev
  | [] => []
  | c :: cs => writeHtmlChar st tgt c ++ syncCharSteps st tgt cs

/-- Follows the spec's words ("round-trips to synchronous behavior"):
a pause-free synchronous write of s — resolve the target (creating the
wrapper child when one is configured), clear it when requested, then
append every character synchronously with no pause. -/
def syncWriteSpec (st : WriterState) (s : String) (replace : Bool) : List Ev :=
  (getTargetElement st).1 ++
    (if replace then [Ev.clear (getTargetElement st).2] else []) ++
    syncCharSteps st (getTargetElement st).2 s.data

/-!
Trace observations: the appended character units (with their target and
whether they were markup-wrapped), and counts of the structural events.
-/

/-- The character units appended to the surface by a trace, in order:
target, whether markup-wrapped, and the character. -/
def appendedUnits (t : List Ev) : List (Target × Bool × Char) :=
  t.filterMap fun e =>
    match e with
    | Ev.wrappedChar tgt c => some (tgt, true, c)
    | Ev.plainChar tgt c => some (tgt, false, c)
    | _ => none

/-- Number of `innerHTML = ''` clears in a trace. -/
def clearCount (t : List Ev) : Nat :=
  t.countP fun e => match e with | Ev.clear _ => true | _ => false

/-- Number of suspension points in a trace. -/
def sleepCount (t : List Ev) : Nat :=
  t.countP fun e => match e with | Ev.sleep _ => true | _ => false

/-- Number of wrapper-tag child elements appended in a trace. -/
def wrapperChildCount (t : List Ev) : Nat :=
  t.countP fun e => match e with | Ev.wrapperChild _ => true | _ => false

@[simp] lemma appendedUnits_nil : appendedUnits [] = [] := rfl

@[simp] lemma appendedUnits_append (a b : List Ev) :
    appendedUnits (a ++ b) = appendedUnits a ++ appendedUnits b :=
  List.filterMap_append a b _

@[simp] lemma clearCount_nil : clearCount [] = 0 := rfl

@[simp] lemma clearCount_append (a b : List Ev) :
    clearCount (a ++ b) = clearCount a + clearCount b :=
  List.countP_append _ a b

@[simp] lemma sleepCount_nil : sleepCount [] = 0 := rfl

@[simp] lemma sleepCount_append (a b : List Ev) :
    sleepCount (a ++ b) = sleepCount a + sleepCount b :=
  List.countP_append _ a b

@[simp] lemma wrapperChildCount_nil : wrapperChildCount [] = 0 := rfl

@[simp] lemma wrapperChildCount_append (a b : List Ev) :
    wrapperChildCount (a ++ b) = wrapperChildCount a + wrapperChildCount b :=
  List.countP_append _ a b

@[simp] lemma appendedUnits_scrollToText (st : WriterState) :
    appendedUnits (scrollToText st) = [] := by
  unfold scrollToText appendedUnits
  split <;> rfl

@[simp] lemma clearCount_scrollToText (st : WriterState) :
    clearCount (scrollToText st) = 0 := by
  unfold scrollToText clearCount
  split <;> rfl

@[simp] lemma sleepCount_scrollToText (st : WriterState) :
    sleepCount (scrollToText st) = 0 := by
  unfold scrollToText sleepCount
  split <;> rfl

@[simp] lemma wrapperChildCount_scrollToText (st : WriterState) :
    wrapperChildCount (scrollToText st) = 0 := by
  unfold scrollToText wrapperChildCount
  split <;> rfl

@[simp] lemma appendedUnits_sleepAnimationDelay (st : WriterState) (m : ℚ) :
    appendedUnits (sleepAnimationDelay st m) = [] := by
  unfold sleepAnimationDelay appendedUnits
  split <;> rfl

@[simp] lemma clearCount_sleepAnimationDelay (st : WriterState) (m : ℚ) :
    clearCount (sleepAnimationDelay st m) = 0 := by
  unfold sleepAnimationDelay clearCount
  split <;> rfl

@[simp] lemma wrapperChildCount_sleepAnimationDelay (st : WriterState) (m : ℚ) :
    wrapperChildCount (sleepAnimationDelay st m) = 0 := by
  unfold sleepAnimationDelay wrapperChildCount
  split <;> rfl

@[simp] lemma appendedUnits_writeHtmlChar (st : WriterState) (tgt : Target) (c : Char) :
    appendedUnits (writeHtmlChar st tgt c) = [(tgt, true, c)] := by
  rw [writeHtmlChar, appendedUnits_append, appendedUnits_scrollToText]
  rfl

@[simp] lemma appendedUnits_writeChar (st : WriterState) (tgt : Target) (c : Char) :
    appendedUnits (writeChar st tgt c) = [(tgt, false, c)] := by
  rw [writeChar, appendedUnits_append, appendedUnits_scrollToText]
  rfl

@[simp] lemma clearCount_writeHtmlChar (st : WriterState) (tgt : Target) (c : Char) :
    clearCount (writeHtmlChar st tgt c) = 0 := by
  rw [writeHtmlChar, clearCount_append, clearCount_scrollToText]
  rfl

@[simp] lemma wrapperChildCount_writeHtmlChar (st : WriterState) (tgt : Target) (c : Char) :
    wrapperChildCount (writeHtmlChar st tgt c) = 0 := by
  rw [writeHtmlChar, wrapperChildCount_append, wrapperChildCount_scrollToText]
  rfl

@[simp] lemma clearCount_writeChar (st : WriterState) (tgt : Target) (c : Char) :
    clearCount (writeChar st tgt c) = 0 := by
  rw [writeChar, clearCount_append, clearCount_scrollToText]
  rfl

@[simp] lemma wrapperChildCount_writeChar (st : WriterState) (tgt : Target) (c : Char) :
    wrapperChildCount (writeChar st tgt c) = 0 := by
  rw [writeChar, wrapperChildCount_append, wrapperChildCount_scrollToText]
  rfl

@[simp] lemma sleepCount_writeHtmlChar (st : WriterState) (tgt : Target) (c : Char) :
    sleepCount (writeHtmlChar st tgt c) = 0 := by
  rw [writeHtmlChar, sleepCount_append, sleepCount_scrollToText]
  rfl

@[simp] lemma appendedUnits_charSteps (st : WriterState) (m : ℚ) (tgt : Target)
    (l : List Char) :
    appendedUnits (charSteps st m tgt l) = l.map fun c => (tgt, true, c) := by
  induction l with
  | nil => rfl
  | cons c cs ih => simp [charSteps, ih]

@[simp] lemma appendedUnits_jsonCharSteps (st : WriterState) (m : ℚ) (tgt : Target)
    (l : List Char) :
    appendedUnits (jsonCharSteps st m tgt l) = l.map fun c => (tgt, false, c) := by
  induction l with
  | nil => rfl
  | cons c cs ih => simp [jsonCharSteps, ih]

@[simp] lemma clearCount_charSteps (st : WriterState) (m : ℚ) (tgt : Target)
    (l : List Char) : clearCount (charSteps st m tgt l) = 0 := by
  induction l with
  | nil => rfl
  | cons c cs ih => simp [charSteps, ih]

@[simp] lemma wrapperChildCount_charSteps (st : WriterState) (m : ℚ) (tgt : Target)
    (l : List Char) : wrapperChildCount (charSteps st m tgt l) = 0 := by
  induction l with
  | nil => rfl
  | cons c cs ih => simp [charSteps, ih]

@[simp] lemma wrapperChildCount_jsonCharSteps (st : WriterState) (m : ℚ) (tgt : Target)
    (l : List Char) : wrapperChildCount (jsonCharSteps st m tgt l) = 0 := by
  induction l with
  | nil => rfl
  | cons c cs ih => simp [jsonCharSteps, ih]

@[simp] lemma appendedUnits_leadEvs (d : ℚ) : appendedUnits (leadEvs d) = [] := by
  unfold leadEvs appendedUnits
  split <;> rfl

@[simp] lemma clearCount_leadEvs (d : ℚ) : clearCount (leadEvs d) = 0 := by
  unfold leadEvs clearCount
  split <;> rfl

@[simp] lemma wrapperChildCount_leadEvs (d : ℚ) : wrapperChildCount (leadEvs d) = 0 := by
  unfold leadEvs wrapperChildCount
  split <;> rfl

@[simp] lemma leadEvs_zero : leadEvs 0 = [] := by
  simp [leadEvs]

@[simp] lemma appendedUnits_getTargetElement (st : WriterState) :
    appendedUnits (getTargetElement st).1 = [] := by
  unfold getTargetElement appendedUnits
  rcases st.htmlWrapperTag with _ | tag
  · rfl
  · by_cases h : tag = "" <;> simp [h]

@[simp] lemma clearCount_getTargetElement (st : WriterState) :
    clearCount (getTargetElement st).1 = 0 := by
  unfold getTargetElement clearCount
  rcases st.htmlWrapperTag with _ | tag
  · rfl
  · by_cases h : tag = "" <;> simp [h, List.countP_cons]

@[simp] lemma sleepCount_getTargetElement (st : WriterState) :
    sleepCount (getTargetElement st).1 = 0 := by
  unfold getTargetElement sleepCount
  rcases st.htmlWrapperTag with _ | tag
  · rfl
  · by_cases h : tag = "" <;> simp [h, List.countP_cons]

@[simp] lemma writeScalar_fst (st : WriterState) (s : String) (m : ℚ) (r : Bool) :
    (writeScalar st s m r).1 = st := rfl

lemma writeListLoop_eq (m : ℚ) (r : Bool) (st : WriterState) (acc : List Ev)
    (L : List String) :
    writeListLoop m r st acc L =
      (st, acc ++ (L.map fun e => (writeScalar st e m r).2).flatten) := by
  induction L generalizing acc with
  | nil => simp [writeListLoop]
  | cons e rest ih => simp [writeListLoop, ih]

@[simp] lemma appendedUnits_clear_if (b : Bool) (tgt : Target) :
    appendedUnits (if b then [Ev.clear tgt] else []) = [] := by
  cases b <;> rfl

@[simp] lemma clearCount_clear_if (b : Bool) (tgt : Target) :
    clearCount (if b then [Ev.clear tgt] else []) = if b then 1 else 0 := by
  cases b <;> rfl

@[simp] lemma sleepCount_clear_if (b : Bool) (tgt : Target) :
    sleepCount (if b then [Ev.clear tgt] else []) = 0 := by
  cases b <;> rfl

@[simp] lemma wrapperChildCount_clear_if (b : Bool) (tgt : Target) :
    wrapperChildCount (if b then [Ev.clear tgt] else []) = 0 := by
  cases b <;> rfl

@[simp] lemma clearCount_clear_singleton (tgt : Target) :
    clearCount [Ev.clear tgt] = 1 := rfl

@[simp] lemma appendedUnits_preBlock : appendedUnits [Ev.preBlock] = [] := rfl

@[simp] lemma clearCount_preBlock : clearCount [Ev.preBlock] = 0 := rfl

@[simp] lemma wrapperChildCount_preBlock : wrapperChildCount [Ev.preBlock] = 0 := rfl

lemma clearCount_flatten (l : List (List Ev)) :
    clearCount l.flatten = (l.map clearCount).sum := by
  induction l with
  | nil => rfl
  | cons a rest ih => simp [ih]

lemma clearCount_cons_clear (tgt : Target) (t : List Ev) :
    clearCount (Ev.clear tgt :: t) = clearCount t + 1 := by
  simp [clearCount, List.countP_cons]

lemma clearCount_writeScalar_replace (st : WriterState) (e : String) (m : ℚ) :
    clearCount (writeScalar st e m true).2 = 1 := by
  simp [writeScalar, clearCount_cons_clear]

lemma charSteps_eq_syncCharSteps (st : WriterState) (m : ℚ) (tgt : Target)
    (l : List Char) (h : st.animationDelay * m = 0) :
    charSteps st m tgt l = syncCharSteps st tgt l := by
  induction l with
  | nil => rfl
  | cons c cs ih => simp [charSteps, syncCharSteps, sleepAnimationDelay, h, ih]

@[simp] lemma sleepCount_syncCharSteps (st : WriterState) (tgt : Target)
    (l : List Char) : sleepCount (syncCharSteps st tgt l) = 0 := by
  induction l with
  | nil => rfl
  | cons c cs ih => simp [syncCharSteps, ih]

@[simp] lemma appendedUnits_cons_preBlock (t : List Ev) :
    appendedUnits (Ev.preBlock :: t) = appendedUnits t := rfl

@[simp] lemma wrapperChildCount_cons_preBlock (t : List Ev) :
    wrapperChildCount (Ev.preBlock :: t) = wrapperChildCount t := by
  simp [wrapperChildCount, List.countP_cons]

lemma clearCount_list_sum (st : WriterState) (m : ℚ) (L : List String) :
    (L.map fun e => clearCount (writeScalar st e m true).2).sum = L.length := by
  induction L with
  | nil => rfl
  | cons e rest ih => simp [clearCount_writeScalar_replace, ih, Nat.add_comm]

/-- C1: for every non-empty string s, write(s) appends exactly len(s)
character units to the resolved target, in the string's original
left-to-right order, and each appended unit is markup-wrapped (every
character is wrapped regardless of whether a container wrapperTag child
was also created for the call, since the state — wrapper configured or
not — is universally quantified). -/
theorem write_appends_each_char_wrapped (st : WriterState) (s : String) (m d : ℚ)
    (r : Bool) (_hs : s ≠ "") :
    appendedUnits (write st (Content.str s) m d r).2 =
      s.data.map (fun c => ((getTargetElement st).2, true, c)) ∧
    (appendedUnits (write st (Content.str s) m d r).2).length = s.length := by
  have h1 : appendedUnits (write st (Content.str s) m d r).2 =
      s.data.map (fun c => ((getTargetElement st).2, true, c)) := by
    simp only [write]
    simp only [writeScalar]
    simp
  exact ⟨h1, by rw [h1, List.length_map]; rfl⟩

/-- Witness for C1 at s = "hi" with a wrapper tag configured. -/
theorem write_appends_each_char_wrapped_witness :
    appendedUnits (write { mkTextWriter none with htmlWrapperTag := some "p" }
        (Content.str "hi") 1 0 false).2 =
      "hi".data.map (fun c =>
        ((getTargetElement { mkTextWriter none with htmlWrapperTag := some "p" }).2,
          true, c)) ∧
    (appendedUnits (write { mkTextWriter none with htmlWrapperTag := some "p" }
        (Content.str "hi") 1 0 false).2).length = "hi".length :=
  write_appends_each_char_wrapped { mkTextWriter none with htmlWrapperTag := some "p" }
    "hi" 1 0 false (by decide)

/-- C2: write on a list of strings produces the lead suspension (if any)
followed by exactly the concatenation, in order, of the traces of write
on each element with lead delay 0 and the same multiplier and clearFirst
flag — no interleaving between elements — and leaves the state
unchanged. -/
theorem write_list_concatenation (st : WriterState) (L : List String) (m d : ℚ)
    (r : Bool) :
    (write st (Content.arr L) m d r).2 =
      leadEvs d ++ (L.map fun e => (write st (Content.str e) m 0 r).2).flatten ∧
    (write st (Content.arr L) m d r).1 = st := by
  constructor
  · simp [write, writeListLoop_eq, leadEvs_zero]
  · simp [write, writeListLoop_eq]

/-- C3: when the textual input to writeJson fails to parse, the call
yields the explicit error result and no surface event at all — the
parse throw happens before any character is appended, so there is no
silent partial write. -/
theorem writeJson_malformed_error (parse : String → Option Json) (st : WriterState)
    (s : String) (m : ℚ) (h : parse s = none) :
    writeJson parse st (JsonInput.text s) m =
      Except.error "malformed structured input" := by
  simp [writeJson, h]

/-- Witness for C3 with a parse function that rejects the input. -/
theorem writeJson_malformed_error_witness :
    (fun _ : String => (none : Option Json)) "oops" = none ∧
    writeJson (fun _ : String => (none : Option Json)) (mkTextWriter none)
      (JsonInput.text "oops") 1 = Except.error "malformed structured input" :=
  ⟨rfl, writeJson_malformed_error (fun _ => none) (mkTextWriter none) "oops" 1 rfl⟩

/-- C4: whenever stepDelay × speedMultiplier is exactly zero (negative
delay times zero multiplier included), write(s) emits no suspension
point and its trace equals the pause-free synchronous write of s. -/
theorem write_zero_product_synchronous (st : WriterState) (s : String) (m : ℚ)
    (r : Bool) (h : st.animationDelay * m = 0) :
    (write st (Content.str s) m 0 r).2 = syncWriteSpec st s r ∧
    sleepCount (write st (Content.str s) m 0 r).2 = 0 := by
  have h1 : (write st (Content.str s) m 0 r).2 = syncWriteSpec st s r := by
    simp [write, writeScalar, syncWriteSpec, leadEvs_zero,
      charSteps_eq_syncCharSteps st m (getTargetElement st).2 s.data h]
  exact ⟨h1, by rw [h1]; simp [syncWriteSpec]⟩

/-- Witness for C4 at a negative delay times a zero multiplier. -/
theorem write_zero_product_synchronous_witness :
    (write { mkTextWriter none with animationDelay := -5 } (Content.str "ab")
        0 0 false).2 =
      syncWriteSpec { mkTextWriter none with animationDelay := -5 } "ab" false ∧
    sleepCount (write { mkTextWriter none with animationDelay := -5 }
        (Content.str "ab") 0 0 false).2 = 0 :=
  write_zero_product_synchronous { mkTextWriter none with animationDelay := -5 }
    "ab" 0 false (by norm_num)

/-- C5: with clearFirst true, a scalar write clears the resolved target
exactly once, after the wrapper-tag child (if any) was created and
before the first character is appended; a list write with clearFirst
true clears once per element's scalar write (L.length times), not once
for the whole list. -/
theorem write_clearFirst_once_before_chars (st : WriterState) (s : String) (m d : ℚ)
    (L : List String) :
    (∃ pre post, (write st (Content.str s) m d true).2 =
        pre ++ [Ev.clear (getTargetElement st).2] ++ post ∧
      appendedUnits pre = [] ∧ clearCount pre = 0 ∧ clearCount post = 0 ∧
      wrapperChildCount post = 0) ∧
    clearCount (write st (Content.arr L) m d true).2 = L.length := by
  constructor
  · refine ⟨leadEvs d ++ (getTargetElement st).1,
      charSteps st m (getTargetElement st).2 s.data, ?_, ?_, ?_, ?_, ?_⟩
    · simp [write, writeScalar]
    · simp
    · simp
    · simp
    · simp
  · have h2 : (write st (Content.arr L) m d true).2 =
        leadEvs d ++ (L.map fun e => (writeScalar st e m true).2).flatten := by
      simp [write, writeListLoop_eq]
    rw [h2, clearCount_append, clearCount_leadEvs, clearCount_flatten, List.map_map,
      Nat.zero_add]
    exact clearCount_list_sum st m L

/-- C6: writeJson on a valid input appends a fresh preformatted block
(never a wrapper-tag child, whatever the configured wrapper tag), that
block is the target of every appended character, the characters are the
2-space-indented serialization of the value in order, and none of them
is markup-wrapped; textual input that parses successfully behaves like
the already-structured value, and the serializer pretty-prints
`\x7b"a": 1\x7d` with exactly two spaces of indentation. -/
theorem writeJson_pre_block_plain_chars (parse : String → Option Json)
    (st : WriterState) (j : Json) (m : ℚ) (s : String) :
    writeJson parse st (JsonInput.json j) m =
      Except.ok (st, [Ev.preBlock] ++ jsonCharSteps st m Target.pre (stringify j).data) ∧
    appendedUnits ([Ev.preBlock] ++ jsonCharSteps st m Target.pre (stringify j).data) =
      (stringify j).data.map (fun c => (Target.pre, false, c)) ∧
    wrapperChildCount
      ([Ev.preBlock] ++ jsonCharSteps st m Target.pre (stringify j).data) = 0 ∧
    (parse s = some j → writeJson parse st (JsonInput.text s) m =
      writeJson parse st (JsonInput.json j) m) ∧
    stringify (Json.obj [("a", Json.num 1)]) = "\x7b\n  \"a\": 1\n\x7d" := by
  refine ⟨rfl, by simp, by simp, ?_, rfl⟩
  intro h
  simp [writeJson, h]

/-- Witness for C6: a successful parse routes the textual input to the
structured branch. -/
theorem writeJson_pre_block_plain_chars_witness :
    writeJson (fun _ : String => some Json.null) (mkTextWriter none)
        (JsonInput.text "null") 0 =
      writeJson (fun _ : String => some Json.null) (mkTextWriter none)
        (JsonInput.json Json.null) 0 :=
  (writeJson_pre_block_plain_chars (fun _ => some Json.null) (mkTextWriter none)
    Json.null 0 "null").2.2.2.1 rfl

/-- C7: skipAnimation leaves the whole state (in particular the
configured delay D) unchanged when it resolves, suspends exactly once
for the previous delay value D, and any per-character pause check run
against its in-flight state (delay forced to zero) takes no suspension
for any multiplier. -/
theorem skipAnimation_restores_delay (st : WriterState) :
    skipAnimation st = (st, [Ev.sleep st.animationDelay]) ∧
    ∀ m : ℚ, sleepAnimationDelay (skipAnimationMid st) m = [] := by
  constructor
  · cases st
    simp [skipAnimation, skipAnimationMid]
  · intro m
    simp [sleepAnimationDelay, skipAnimationMid]

/-- C8 (counterexample): with the default configuration and a lead
delay of −1 — which is not strictly positive — write still takes a lead
suspension as its very first event, refuting "no lead suspension is
taken when leadDelayMs is not strictly positive". -/
theorem write_lead_negative_delay_counterexample :
    ¬ ((-1 : ℚ) > 0) ∧
    (write (mkTextWriter none) (Content.str "a") 1 (-1) false).2.head? =
      some (Ev.sleep (-1)) := by
  constructor
  · norm_num
  · rfl

/-- C8 (amended): the one-time lead suspension is taken exactly when
leadDelayMs is nonzero (JS truthiness of `if (delay)`), ahead of all
other output of the call — so a zero lead delay takes no lead
suspension, but a negative one does. -/
theorem write_lead_suspension_iff_nonzero (st : WriterState) (c : Content)
    (m d : ℚ) (r : Bool) :
    (write st c m d r).2 = leadEvs d ++ (write st c m 0 r).2 ∧
    (leadEvs d = [] ↔ d = 0) := by
  constructor
  · cases c <;> simp [write, leadEvs_zero]
  · by_cases h : d = 0 <;> simp [leadEvs, h]

/-- C9: write of the empty string while a wrapper tag is configured is
not a pure no-op: its whole trace is the creation of one new empty
wrapper-tag child on the surface, with zero character units emitted. -/
theorem write_empty_string_appends_wrapper_child (st : WriterState) (tag : String)
    (h1 : st.htmlWrapperTag = some tag) (h2 : tag ≠ "") :
    (write st (Content.str "") 1 0 false).2 = [Ev.wrapperChild tag] ∧
    appendedUnits (write st (Content.str "") 1 0 false).2 = [] ∧
    (write st (Content.str "") 1 0 false).2 ≠ [] := by
  have ht : getTargetElement st = ([Ev.wrapperChild tag], Target.wrapper) := by
    simp [getTargetElement, h1, h2]
  have htr : (write st (Content.str "") 1 0 false).2 = [Ev.wrapperChild tag] := by
    simp [write, writeScalar, ht, leadEvs_zero, charSteps]
  exact ⟨htr, by rw [htr]; rfl, by rw [htr]; simp⟩

/-- Witness for C9 with wrapper tag "p". -/
theorem write_empty_string_appends_wrapper_child_witness :
    (write { mkTextWriter none with htmlWrapperTag := some "p" }
        (Content.str "") 1 0 false).2 = [Ev.wrapperChild "p"] ∧
    appendedUnits (write { mkTextWriter none with htmlWrapperTag := some "p" }
        (Content.str "") 1 0 false).2 = [] ∧
    (write { mkTextWriter none with htmlWrapperTag := some "p" }
        (Content.str "") 1 0 false).2 ≠ [] :=
  write_empty_string_appends_wrapper_child
    { mkTextWriter none with htmlWrapperTag := some "p" } "p" rfl (by decide)

/-- C10: write and writeJson return the configuration unchanged (they
only read it and emit surface events); skipAnimation resolves with the
configuration fully restored, and even its in-flight state differs from
the original in the step-delay field alone. -/
theorem write_writeJson_preserve_configuration (st : WriterState) (c : Content)
    (m d : ℚ) (r : Bool) (parse : String → Option Json) (x : JsonInput) (q : ℚ) :
    (write st c m d r).1 = st ∧
    Except.map Prod.fst (writeJson parse st x q) =
      Except.map (fun _ => st) (writeJson parse st x q) ∧
    (skipAnimation st).1 = st ∧
    (skipAnimationMid st).textDestinationContainer = st.textDestinationContainer ∧
    (skipAnimationMid st).htmlWrapperTag = st.htmlWrapperTag ∧
    (skipAnimationMid st).scrollToTextEnabled = st.scrollToTextEnabled := by
  refine ⟨?_, ?_, ?_, rfl, rfl, rfl⟩
  · cases c <;> simp [write, writeListLoop_eq]
  · unfold writeJson
    split <;> rfl
  · cases st
    simp [skipAnimation, skipAnimationMid]
